import Mathlib

/-!
Verification of the ABX binary-XML decoder (`abx2xml.cpp`).

The development shallowly embeds the decoder: the `std::ifstream` byte source
becomes a list of remaining bytes together with an explicit `eofbit` flag
(C++ stream semantics: the flag is set only when a read attempts to move past
the end of the source, never merely by being positioned at the end), the
`AbxReader` private readers become functions from reader state to
`Except Err (value × state)`, and the token loop of `AbxReader::read`
becomes a fuel-indexed step function over an explicit decoder state.

Mutation of the element tree through `shared_ptr` aliases in the C++ is
rendered functionally: the open-element stack holds partial nodes, and a
child is attached to its parent when it is popped (in the C++ the child is
attached at its start tag and then mutated in place; since the direct
children of a node are closed in the order they are opened, both renderings
produce the same tree, including when the loop exits with elements still
open, where the remaining stack is folded bottom-up).
-/

/-- Error outcomes of the decoder.  The `couldNotRead*` constructors are the
`std::runtime_error` exceptions of the primitive readers; the remaining ones
(except `internIndexOutOfRange`) are the `AbxDecodeError` exceptions thrown
by `AbxReader::read`.  `internIndexOutOfRange` is not an exception of the
program: it marks the undefined behaviour of `interned_strings[reference]`
(`std::vector::operator[]` with an out-of-range index, line 187), which the
C++ performs without any bounds check. -/
inductive Err where
  | couldNotReadByte
  | couldNotReadShort
  | couldNotReadUShort
  | couldNotReadInt
  | couldNotReadLong
  | couldNotReadFloat
  | couldNotReadDouble
  | couldNotReadString
  | couldNotReadBytes
  | invalidMagic
  | invalidStartDocType
  | invalidEndDocType
  | unclosedElements
  | invalidStartTagType
  | invalidEndTagType
  | unexpectedEndTag
  | mismatchedEndTag
  | unexpectedText
  | unexpectedAttribute
  | unexpectedAttrDataType
  | unexpectedXmlType
  | noRootElement
  | internIndexOutOfRange
deriving DecidableEq

/-- Reader state: the bytes not yet consumed, the stream's `eofbit`, and the
`interned_strings` table of the `AbxReader` object. -/
structure RState where
  data : List Nat
  eofbit : Bool
  interned : List String
deriving DecidableEq

/-- Two's-complement reading of a 16-bit big-endian value (`read_short`
returns `__builtin_bswap16` of the two raw bytes as `int16_t`). -/
def toSigned16 (n : Nat) : Int :=
  if n < 32768 then (n : Int) else (n : Int) - 65536

/-- Two's-complement reading of a 32-bit big-endian value. -/
def toSigned32 (n : Nat) : Int :=
  if n < 2147483648 then (n : Int) else (n : Int) - 4294967296

/-- Two's-complement reading of a 64-bit big-endian value. -/
def toSigned64 (n : Nat) : Int :=
  if n < 9223372036854775808 then (n : Int) else (n : Int) - 18446744073709551616

/-- `AbxReader::read_byte` (line 121): one byte or "Could not read byte". -/
def read_byte (rs : RState) : Except Err (Nat × RState) :=
  match rs.data with
  | [] => .error .couldNotReadByte
  | b :: rest => .ok (b, { rs with data := rest })

/-- `AbxReader::read_short` (line 128): two bytes, big-endian, signed. -/
def read_short (rs : RState) : Except Err (Int × RState) :=
  match rs.data with
  | b0 :: b1 :: rest => .ok (toSigned16 (b0 * 256 + b1), { rs with data := rest })
  | _ => .error .couldNotReadShort

/-- `AbxReader::read_unsigned_short` (line 135): two bytes, big-endian. -/
def read_unsigned_short (rs : RState) : Except Err (Nat × RState) :=
  match rs.data with
  | b0 :: b1 :: rest => .ok (b0 * 256 + b1, { rs with data := rest })
  | _ => .error .couldNotReadUShort

/-- `AbxReader::read_int` (line 142): four bytes, big-endian, signed. -/
def read_int (rs : RState) : Except Err (Int × RState) :=
  match rs.data with
  | b0 :: b1 :: b2 :: b3 :: rest =>
      .ok (toSigned32 (((b0 * 256 + b1) * 256 + b2) * 256 + b3), { rs with data := rest })
  | _ => .error .couldNotReadInt

/-- `AbxReader::read_long` (line 149): eight bytes, big-endian, signed. -/
def read_long (rs : RState) : Except Err (Int × RState) :=
  match rs.data with
  | b0 :: b1 :: b2 :: b3 :: b4 :: b5 :: b6 :: b7 :: rest =>
      .ok (toSigned64 (((((((b0 * 256 + b1) * 256 + b2) * 256 + b3) * 256 + b4) * 256
            + b5) * 256 + b6) * 256 + b7), { rs with data := rest })
  | _ => .error .couldNotReadLong

/-- `AbxReader::read_float` (line 156): four bytes; the C++ byte-swaps the
raw bits and converts the resulting `int32_t` to `float` by value; we keep
that integer (its textual rendering is abstracted, see `float_text`). -/
def read_float (rs : RState) : Except Err (Int × RState) :=
  match rs.data with
  | b0 :: b1 :: b2 :: b3 :: rest =>
      .ok (toSigned32 (((b0 * 256 + b1) * 256 + b2) * 256 + b3), { rs with data := rest })
  | _ => .error .couldNotReadFloat

/-- `AbxReader::read_double` (line 164): eight bytes, analogous to
`read_float`. -/
def read_double (rs : RState) : Except Err (Int × RState) :=
  match rs.data with
  | b0 :: b1 :: b2 :: b3 :: b4 :: b5 :: b6 :: b7 :: rest =>
      .ok (toSigned64 (((((((b0 * 256 + b1) * 256 + b2) * 256 + b3) * 256 + b4) * 256
            + b5) * 256 + b6) * 256 + b7), { rs with data := rest })
  | _ => .error .couldNotReadDouble

/-- A raw byte rendered as the character of the same code point (the C++
stores raw bytes in `std::string` without any encoding validation). -/
def charOfByte (n : Nat) : Char := Char.ofNat n

/-- `AbxReader::read_string_raw` (line 172): a 16-bit unsigned length prefix
followed by that many raw bytes.  A short length read propagates the
`read_unsigned_short` error; missing body bytes give "Could not read
string". -/
def read_string_raw (rs : RState) : Except Err (String × RState) :=
  match read_unsigned_short rs with
  | .error e => .error e
  | .ok (length, rs1) =>
      if rs1.data.length < length then .error .couldNotReadString
      else .ok (String.mk ((rs1.data.take length).map charOfByte),
                { rs1 with data := rs1.data.drop length })

/-- `AbxReader::read_interned_string` (line 180): reads a signed 16-bit
reference; `-1` means a definition follows (read a raw string, append it to
the table, return it); any other reference is used, without a bounds check,
to index `interned_strings`.  An index outside the table (including the
negative values `-2 ≤ r` excluded by `-1`, which convert to huge
`size_type` values) is undefined behaviour in the C++, marked here by
`internIndexOutOfRange`. -/
def read_interned_string (rs : RState) : Except Err (String × RState) :=
  match read_short rs with
  | .error e => .error e
  | .ok (reference, rs1) =>
      if reference = -1 then
        match read_string_raw rs1 with
        | .error e => .error e
        | .ok (value, rs2) =>
            .ok (value, { rs2 with interned := rs2.interned ++ [value] })
      else if reference < 0 then .error .internIndexOutOfRange
      else
        match rs1.interned.get? reference.toNat with
        | some s => .ok (s, rs1)
        | none => .error .internIndexOutOfRange

/-- The alphabet `base64_chars` of `base64_encode` (line 51). -/
def base64_chars : List Char :=
  "ABCDEFGHIJKLMNOPQRSTUVWXYZabcdefghijklmnopqrstuvwxyz0123456789+/".data

/-- One output character of `base64_encode`: `base64_chars[x & 0x3F]`. -/
def b64char (x : Nat) : Char := base64_chars.getD (x &&& 0x3F) 'A'

/-- `base64_encode` (lines 50-67).  The C++ loop advances three input bytes
per iteration, building `triple` from the bytes that exist (`0` otherwise)
and emitting `=` for the third and fourth character when fewer than two,
resp. three, bytes remain; the recursion below renders one loop iteration
per step. -/
def base64_encode : List Nat → List Char
  | [] => []
  | [a] =>
      let triple := a <<< 16
      [b64char (triple >>> 18), b64char (triple >>> 12), '=', '=']
  | [a, b] =>
      let triple := a <<< 16 ||| b <<< 8
      [b64char (triple >>> 18), b64char (triple >>> 12), b64char (triple >>> 6), '=']
  | a :: b :: c :: rest =>
      let triple := a <<< 16 ||| b <<< 8 ||| c
      b64char (triple >>> 18) :: b64char (triple >>> 12) :: b64char (triple >>> 6) ::
        b64char triple :: base64_encode rest

/-- One byte of the `TYPE_BYTES_HEX` attribute rendering (line 384):
`std::hex << std::setw(2) << std::setfill('0')` of the byte, i.e. its
lowercase hexadecimal digits left-padded with `'0'` to width two. -/
def hexByte (b : Nat) : List Char :=
  let ds := Nat.toDigits 16 b
  List.replicate (2 - ds.length) '0' ++ ds

/-- The full `TYPE_BYTES_HEX` rendering: the bytes' hex pairs concatenated
with no separators (lines 382-385). -/
def hex_encode (l : List Nat) : List Char := (l.map hexByte).flatten

/-- Modelled from the spec: RFC 4648 base64 with `=` padding, "computed over
3-byte groups" — each group is read as a 24-bit big-endian number, split
into four 6-bit digits mapped through the standard alphabet, with partial
final groups zero-filled and the absent digit positions rendered as `=`.
Written with plain arithmetic, to be compared with the source-derived
`base64_encode`. -/
def rfc4648_encode : List Nat → List Char
  | [] => []
  | [a] =>
      let n := a * 65536
      [base64_chars.getD (n / 262144 % 64) 'A', base64_chars.getD (n / 4096 % 64) 'A',
       '=', '=']
  | [a, b] =>
      let n := a * 65536 + b * 256
      [base64_chars.getD (n / 262144 % 64) 'A', base64_chars.getD (n / 4096 % 64) 'A',
       base64_chars.getD (n / 64 % 64) 'A', '=']
  | a :: b :: c :: rest =>
      let n := a * 65536 + b * 256 + c
      base64_chars.getD (n / 262144 % 64) 'A' :: base64_chars.getD (n / 4096 % 64) 'A' ::
        base64_chars.getD (n / 64 % 64) 'A' :: base64_chars.getD (n % 64) 'A' ::
        rfc4648_encode rest

/-- The output tree: `XMLElement` (lines 69-82) with its `tag`, `text`,
`attrib` and `children` fields (the `std::unordered_map` becomes an
association list, insertion order; claims do not depend on its order). -/
inductive XMLElement where
  | node (tag : String) (text : String) (attrib : List (String × String))
      (children : List XMLElement)

/-- Tag of an element. -/
def XMLElement.tag : XMLElement → String
  | .node t _ _ _ => t

/-- Children of an element. -/
def XMLElement.children : XMLElement → List XMLElement
  | .node _ _ _ cs => cs

/-- An entry of the open-element stack: an element still being built (its
children list holds the already-closed children). -/
structure PElem where
  tag : String
  text : String
  attrib : List (String × String)
  children : List XMLElement

/-- Completing a stack entry into a tree node. -/
def close (p : PElem) : XMLElement := .node p.tag p.text p.attrib p.children

/-- `XMLElement::add_child` (line 79): append to the children sequence. -/
def addChild (p : PElem) (c : XMLElement) : PElem :=
  { p with children := p.children ++ [c] }

/-- Folding the remaining open-element stack (innermost first) into the tree
the C++ `root` pointer designates: each entry is the last-started child of
the one below it. -/
def assemble : PElem → List PElem → XMLElement
  | p, [] => close p
  | p, q :: rest => assemble (addChild q (close p)) rest

mutual

/-- The chain of tags reached from a node by repeatedly stepping to the last
child: the ancestor chain of the innermost element of an assembled stack. -/
def lastChain : XMLElement → List String
  | .node t _ _ cs => t :: chainOfLast cs

/-- The chain of the last element of a list, empty for an empty list. -/
def chainOfLast : List XMLElement → List String
  | [] => []
  | [c] => lastChain c
  | _ :: c :: rest => chainOfLast (c :: rest)

end

/-- Decoder state of `AbxReader::read` (lines 254-257): reader state plus
the `document_opened` and `root_closed` flags (both written and never read
by the C++), the open-element stack (innermost element first; the C++
vector's `back()` is our head), and the last fully-closed top-level element
(what the C++ `root` pointer designates when the stack is empty). -/
structure DState where
  rs : RState
  documentOpened : Bool
  rootClosed : Bool
  stack : List PElem
  rootDone : Option XMLElement

/-- Outcome of one loop iteration: continue with a new state, or leave the
loop (the `break` of the `END_DOCUMENT` case). -/
inductive StepOut where
  | cont (s : DState)
  | finish (s : DState)

/-- The state carried by either `StepOut` constructor. -/
def StepOut.state : StepOut → DState
  | .cont s => s
  | .finish s => s

/-- C-locale `isspace` (line 318): space, and the five control characters
`\t`, `\n`, vertical tab, form feed, `\r`. -/
def is_space (n : Nat) : Bool := n == 32 || (9 ≤ n && n ≤ 13)

/-- Lowercase hexadecimal of a natural with no padding (what
`std::stringstream << std::hex` produces for a non-negative value). -/
def natHex (n : Nat) : String := String.mk (Nat.toDigits 16 n)

/-- Modelled rendering of a `float` attribute value (lines 364-366): the C++
converts the byte-swapped bit pattern to `float` by integer conversion and
formats it with `std::to_string`; the resulting text is platform
floating-point formatting, abstracted here as a function of the integer
(no claim depends on this text). -/
def float_text (v : Int) : String := toString v

/-- Modelled rendering of a `double` attribute value (lines 367-369),
abstracted exactly as `float_text`. -/
def double_text (v : Int) : String := toString v

/-- `element_stack.back()->attrib[attribute_name] = value` (line 401):
insert or overwrite the binding of the attribute name. -/
def setAttr (l : List (String × String)) (k v : String) : List (String × String) :=
  if l.any (fun p => p.1 == k) then
    l.map (fun p => if p.1 == k then (k, v) else p)
  else l ++ [(k, v)]

/-- The `switch (static_cast<DataType>(data_type))` of the `ATTRIBUTE` case
(lines 336-399): decode one attribute value from its type nibble. -/
def decodeAttrValue (dataType : Nat) (rs : RState) : Except Err (String × RState) :=
  if dataType = 0x10 then .ok ("null", rs)
  else if dataType = 0xC0 then .ok ("true", rs)
  else if dataType = 0xD0 then .ok ("false", rs)
  else if dataType = 0x60 then
    match read_int rs with
    | .error e => .error e
    | .ok (v, rs1) => .ok (toString v, rs1)
  else if dataType = 0x70 then
    match read_int rs with
    | .error e => .error e
    | .ok (v, rs1) => .ok (natHex (v.emod 4294967296).toNat, rs1)
  else if dataType = 0x80 then
    match read_long rs with
    | .error e => .error e
    | .ok (v, rs1) => .ok (toString v, rs1)
  else if dataType = 0x90 then
    match read_long rs with
    | .error e => .error e
    | .ok (v, rs1) => .ok (natHex (v.emod 18446744073709551616).toNat, rs1)
  else if dataType = 0xA0 then
    match read_float rs with
    | .error e => .error e
    | .ok (v, rs1) => .ok (float_text v, rs1)
  else if dataType = 0xB0 then
    match read_double rs with
    | .error e => .error e
    | .ok (v, rs1) => .ok (double_text v, rs1)
  else if dataType = 0x20 then read_string_raw rs
  else if dataType = 0x30 then read_interned_string rs
  else if dataType = 0x40 then
    match read_short rs with
    | .error e => .error e
    | .ok (v, rs1) =>
        if rs1.data.length < (v.emod 65536).toNat then .error .couldNotReadBytes
        else .ok (String.mk (hex_encode (rs1.data.take (v.emod 65536).toNat)),
                  { rs1 with data := rs1.data.drop (v.emod 65536).toNat })
  else if dataType = 0x50 then
    match read_short rs with
    | .error e => .error e
    | .ok (v, rs1) =>
        if rs1.data.length < (v.emod 65536).toNat then .error .couldNotReadBytes
        else .ok (String.mk (base64_encode (rs1.data.take (v.emod 65536).toNat)),
                  { rs1 with data := rs1.data.drop (v.emod 65536).toNat })
  else .error .unexpectedAttrDataType

/-- `START_DOCUMENT` case (lines 272-276). -/
def handleStartDocument (dataType : Nat) (s : DState) : Except Err StepOut :=
  if dataType ≠ 0x10 then .error .invalidStartDocType
  else .ok (.cont { s with documentOpened := true })

/-- `END_DOCUMENT` case (lines 277-283). -/
def handleEndDocument (mr : Bool) (dataType : Nat) (s : DState) : Except Err StepOut :=
  if dataType ≠ 0x10 then .error .invalidEndDocType
  else if ¬(s.stack.isEmpty ∨ (mr ∧ s.stack.length = 1)) then .error .unclosedElements
  else .ok (.finish s)

/-- `START_TAG` case (lines 284-298): resolve the tag name and push a fresh
element.  In the C++ the element also becomes `root` when the stack is
empty, resp. is attached to the parent now; here the root is the bottom of
the stack and attachment happens at the matching pop (see the file
comment). -/
def handleStartTag (dataType : Nat) (s : DState) : Except Err StepOut :=
  if dataType ≠ 0x30 then .error .invalidStartTagType
  else
    match read_interned_string s.rs with
    | .error e => .error e
    | .ok (tagName, rs1) =>
        .ok (.cont { s with rs := rs1, stack := (⟨tagName, "", [], []⟩ : PElem) :: s.stack })

/-- `END_TAG` case (lines 299-313): reject an empty stack (or, in
multi-root mode, a stack holding only the synthetic wrapper) before reading
the name; then require the name to equal the top's tag, and pop. -/
def handleEndTag (mr : Bool) (dataType : Nat) (s : DState) : Except Err StepOut :=
  if dataType ≠ 0x30 then .error .invalidEndTagType
  else if s.stack.isEmpty ∨ (mr ∧ s.stack.length = 1) then .error .unexpectedEndTag
  else
    match read_interned_string s.rs with
    | .error e => .error e
    | .ok (tagName, rs1) =>
        match s.stack with
        | [] => .error .unexpectedEndTag
        | top :: rest =>
            if top.tag ≠ tagName then .error .mismatchedEndTag
            else
              match rest with
              | [] =>
                  let t : DState :=
                    { s with rs := rs1, stack := [],
                             rootDone := some (close top), rootClosed := true }
                  .ok (.cont t)
              | parent :: rest1 =>
                  let t : DState :=
                    { s with rs := rs1,
                             stack := (addChild parent (close top)) :: rest1 }
                  .ok (.cont t)

/-- `TEXT` case (lines 314-328): the type nibble is not checked; a run of
whitespace is discarded before the empty-stack check; otherwise the run is
assigned to the top's empty text or appended to its non-empty text. -/
def handleText (s : DState) : Except Err StepOut :=
  match read_string_raw s.rs with
  | .error e => .error e
  | .ok (value, rs1) =>
      if value.data.all (fun c => is_space c.toNat) then .ok (.cont { s with rs := rs1 })
      else
        match s.stack with
        | [] => .error .unexpectedText
        | top :: rest =>
            let top1 : PElem :=
              { top with text := if top.text = "" then value else top.text ++ value }
            let t : DState := { s with rs := rs1, stack := top1 :: rest }
            .ok (.cont t)

/-- `ATTRIBUTE` case (lines 329-402): reject an empty stack (or only the
wrapper) before reading the name, then decode the value and store it on the
stack top. -/
def handleAttribute (mr : Bool) (dataType : Nat) (s : DState) : Except Err StepOut :=
  if s.stack.isEmpty ∨ (mr ∧ s.stack.length = 1) then .error .unexpectedAttribute
  else
    match read_interned_string s.rs with
    | .error e => .error e
    | .ok (attributeName, rs1) =>
        match decodeAttrValue dataType rs1 with
        | .error e => .error e
        | .ok (value, rs2) =>
            match s.stack with
            | [] => .error .unexpectedAttribute
            | top :: rest =>
                let top1 : PElem :=
                  { top with attrib := setAttr top.attrib attributeName value }
                let t : DState := { s with rs := rs2, stack := top1 :: rest }
                .ok (.cont t)

/-- Unknown token kinds (lines 403-418): with a zero type nibble the token
is skipped outright; `TYPE_INT` consumes four bytes, `TYPE_STRING` and
`TYPE_STRING_INTERNED` consume a raw length-prefixed run; every other type
nibble — `TYPE_NULL` (0x10) included — throws "Unexpected XML type". -/
def handleUnknown (dataType : Nat) (s : DState) : Except Err StepOut :=
  if dataType ≠ 0 then
    if dataType = 0x60 then
      match read_int s.rs with
      | .error e => .error e
      | .ok (_, rs1) => .ok (.cont { s with rs := rs1 })
    else if dataType = 0x20 ∨ dataType = 0x30 then
      match read_string_raw s.rs with
      | .error e => .error e
      | .ok (_, rs1) => .ok (.cont { s with rs := rs1 })
    else .error .unexpectedXmlType
  else .ok (.cont s)

/-- One iteration of the token loop (lines 268-418): read the token byte,
split it into its kind (low) and type (high) nibble, dispatch. -/
def stepit (mr : Bool) (s : DState) : Except Err StepOut :=
  match read_byte s.rs with
  | .error e => .error e
  | .ok (token, rs0) =>
      if token &&& 0x0f = 0 then handleStartDocument (token &&& 0xf0) { s with rs := rs0 }
      else if token &&& 0x0f = 1 then handleEndDocument mr (token &&& 0xf0) { s with rs := rs0 }
      else if token &&& 0x0f = 2 then handleStartTag (token &&& 0xf0) { s with rs := rs0 }
      else if token &&& 0x0f = 3 then handleEndTag mr (token &&& 0xf0) { s with rs := rs0 }
      else if token &&& 0x0f = 4 then handleText { s with rs := rs0 }
      else if token &&& 0x0f = 15 then handleAttribute mr (token &&& 0xf0) { s with rs := rs0 }
      else handleUnknown (token &&& 0xf0) { s with rs := rs0 }

/-- The `while (true)` loop of `AbxReader::read` (lines 264-419), indexed by
fuel so that it is structurally recursive.  The zero-fuel branch is
unreachable when the loop starts with more fuel than remaining bytes, since
every continuing iteration consumes the token byte (`loopFuel_irrel` below
makes the fuel irrelevance precise); it returns the error of the byte read
that a forever-looping stream-less C++ program could never reach. -/
def loopFuel : Nat → Bool → DState → Except Err DState
  | 0, _, _ => .error .couldNotReadByte
  | fuel + 1, mr, s =>
      if s.rs.eofbit then .ok s
      else
        match stepit mr s with
        | .error e => .error e
        | .ok (.finish t) => .ok t
        | .ok (.cont t) => loopFuel fuel mr t

/-- The payload skip of `skip_header_extension` (lines 200-234): the switch
over the type nibble of a header-extension token. -/
def skipPayload (token : Nat) (rs : RState) : Except Err RState :=
  if token &&& 0xf0 = 0x10 then .ok rs
  else if token &&& 0xf0 = 0x60 then
    match read_int rs with
    | .error e => .error e
    | .ok (_, rs1) => .ok rs1
  else if token &&& 0xf0 = 0x80 then
    match read_long rs with
    | .error e => .error e
    | .ok (_, rs1) => .ok rs1
  else if token &&& 0xf0 = 0xA0 then
    match read_float rs with
    | .error e => .error e
    | .ok (_, rs1) => .ok rs1
  else if token &&& 0xf0 = 0xB0 then
    match read_double rs with
    | .error e => .error e
    | .ok (_, rs1) => .ok rs1
  else if token &&& 0xf0 = 0x20 ∨ token &&& 0xf0 = 0x30 then
    match read_string_raw rs with
    | .error e => .error e
    | .ok (_, rs1) => .ok rs1
  else if token &&& 0xf0 = 0x40 ∨ token &&& 0xf0 = 0x50 then
    match read_short rs with
    | .error e => .error e
    | .ok (v, rs1) => .ok { rs1 with data := rs1.data.drop (v.emod 65536).toNat }
  else
    if token &&& 0x0f > 0 then .ok { rs with data := rs.data.drop (token &&& 0x0f) }
    else .ok rs

/-- `skip_header_extension` (lines 190-236): read tokens until one whose low
nibble is `START_DOCUMENT`, which is pushed back (`seekg(-1)`, modelled by
returning the state from before its read); fuel-indexed like `loopFuel`. -/
def skipHeaderFuel : Nat → RState → Except Err RState
  | 0, _ => .error .couldNotReadByte
  | fuel + 1, rs =>
      match read_byte rs with
      | .error e => .error e
      | .ok (token, rs1) =>
          if token &&& 0x0f = 0 then .ok rs
          else
            match skipPayload token rs1 with
            | .error e => .error e
            | .ok rs2 => skipHeaderFuel fuel rs2

/-- The return of `AbxReader::read` (lines 421-424): the tree designated by
the `root` pointer — the folded stack when elements remain open (in
multi-root mode the bottom is the synthetic wrapper), otherwise the last
fully-closed top-level element; "No root element found" if neither
exists. -/
def finalize (s : DState) : Except Err XMLElement :=
  match s.stack with
  | top :: rest => .ok (assemble top rest)
  | [] =>
      match s.rootDone with
      | some r => .ok r
      | none => .error .noRootElement

/-- The magic preamble `"ABX\0"` (line 119). -/
def abxMagic : List Nat := [0x41, 0x42, 0x58, 0x00]

/-- `AbxReader::read` (lines 245-425): check the magic, skip header
extensions, push the synthetic `"root"` wrapper in multi-root mode, run the
token loop, and return the root.  `document_opened` starts `true`
(line 254). -/
def readAbx (mr : Bool) (input : List Nat) : Except Err XMLElement :=
  match input with
  | m0 :: m1 :: m2 :: m3 :: rest =>
      if m0 = 0x41 ∧ m1 = 0x42 ∧ m2 = 0x58 ∧ m3 = 0x00 then
        match skipHeaderFuel (rest.length + 1) ⟨rest, false, []⟩ with
        | .error e => .error e
        | .ok rs =>
            match loopFuel (rs.data.length + 1) mr
                { rs := rs, documentOpened := true, rootClosed := false,
                  stack := if mr then [⟨"root", "", [], []⟩] else [],
                  rootDone := none } with
            | .error e => .error e
            | .ok s1 => finalize s1
      else .error .invalidMagic
  | _ => .error .invalidMagic

theorem read_short_parts (rs : RState) (v : Int) (rs' : RState)
    (h : read_short rs = .ok (v, rs')) :
    rs'.interned = rs.interned ∧ rs'.eofbit = rs.eofbit ∧
      rs'.data.length + 2 = rs.data.length := by
  unfold read_short at h
  split at h
  · simp only [Except.ok.injEq, Prod.mk.injEq] at h
    obtain ⟨-, h2⟩ := h
    subst h2
    simp_all
  · cases h

theorem read_unsigned_short_parts (rs : RState) (v : Nat) (rs' : RState)
    (h : read_unsigned_short rs = .ok (v, rs')) :
    rs'.interned = rs.interned ∧ rs'.eofbit = rs.eofbit ∧
      rs'.data.length + 2 = rs.data.length := by
  unfold read_unsigned_short at h
  split at h
  · simp only [Except.ok.injEq, Prod.mk.injEq] at h
    obtain ⟨-, h2⟩ := h
    subst h2
    simp_all
  · cases h

theorem read_string_raw_parts (rs : RState) (v : String) (rs' : RState)
    (h : read_string_raw rs = .ok (v, rs')) :
    rs'.interned = rs.interned ∧ rs'.eofbit = rs.eofbit ∧
      rs'.data.length ≤ rs.data.length := by
  unfold read_string_raw at h
  cases hs : read_unsigned_short rs with
  | error e => rw [hs] at h; cases h
  | ok p =>
    obtain ⟨length, rs1⟩ := p
    rw [hs] at h
    have h1 := read_unsigned_short_parts rs length rs1 hs
    simp only at h
    split at h
    · cases h
    · simp only [Except.ok.injEq, Prod.mk.injEq] at h
      obtain ⟨-, h2⟩ := h
      subst h2
      refine ⟨h1.1, h1.2.1, ?_⟩
      have := h1.2.2
      simp only [List.length_drop]
      omega

/-- Claim C2 behaviour of the intern-table resolve, at concrete inputs: a
`-1` reference defines, appends and returns the following raw run; an
in-range non-negative reference returns the table entry; an out-of-range
non-negative reference is an unchecked `std::vector` access — undefined
behaviour, not an invalid-intern-reference decode error. -/
theorem c2_intern_resolve_concrete :
    read_interned_string ⟨[0xFF, 0xFF, 0x00, 0x01, 0x61], false, []⟩ =
      .ok ("a", ⟨[], false, ["a"]⟩) ∧
    read_interned_string ⟨[0x00, 0x00], false, ["x"]⟩ = .ok ("x", ⟨[], false, ["x"]⟩) ∧
    read_interned_string ⟨[0x00, 0x05], false, []⟩ = .error .internIndexOutOfRange := by
  refine ⟨?_, ?_, ?_⟩ <;> rfl

/-- Claim C7: every successful intern-table resolve leaves the existing
entries untouched (the old table is a prefix of the new one); it either
leaves the table unchanged or — exactly in the definition case — appends
the one returned string, whose index is the next sequential one (the old
length). -/
theorem c7_intern_append_only (st : RState) (v : String) (st' : RState)
    (h : read_interned_string st = .ok (v, st')) :
    st.interned <+: st'.interned ∧
      (st'.interned = st.interned ∨ st'.interned = st.interned ++ [v]) ∧
      (st'.interned = st.interned ++ [v] →
        st'.interned.get? st.interned.length = some v) := by
  unfold read_interned_string at h
  cases hs : read_short st with
  | error e => rw [hs] at h; cases h
  | ok p =>
    obtain ⟨reference, rs1⟩ := p
    rw [hs] at h
    have h1 := read_short_parts st reference rs1 hs
    simp only at h
    split at h
    · cases hraw : read_string_raw rs1 with
      | error e => rw [hraw] at h; cases h
      | ok q =>
        obtain ⟨value, rs2⟩ := q
        rw [hraw] at h
        have h2 := read_string_raw_parts rs1 value rs2 hraw
        simp only [Except.ok.injEq, Prod.mk.injEq] at h
        obtain ⟨hv, hst⟩ := h
        subst hv
        subst hst
        refine ⟨⟨[value], by simp [h2.1, h1.1]⟩, ?_, ?_⟩
        · right
          simp [h2.1, h1.1]
        · intro _
          simp [h2.1, h1.1, List.get?_concat_length]
    · split at h
      · cases h
      · split at h
        · simp only [Except.ok.injEq, Prod.mk.injEq] at h
          obtain ⟨-, hst⟩ := h
          subst hst
          refine ⟨h1.1 ▸ List.prefix_rfl, .inl h1.1, fun hc => ?_⟩
          rw [h1.1] at hc
          have := congrArg List.length hc
          simp at this
        · cases h

/-- Witness for C7: the definition call on concrete bytes, with the
hypothesis evaluated. -/
theorem c7_intern_append_only_witness :
    read_interned_string ⟨[0xFF, 0xFF, 0x00, 0x01, 0x62], false, []⟩ =
        .ok ("b", ⟨[], false, ["b"]⟩) ∧
      (([] : List String) <+: ["b"] ∧
        (["b"] = ([] : List String) ∨ ["b"] = [] ++ ["b"]) ∧
        (["b"] = [] ++ ["b"] → (["b"] : List String).get? 0 = some "b")) :=
  ⟨rfl, c7_intern_append_only ⟨[0xFF, 0xFF, 0x00, 0x01, 0x62], false, []⟩ "b"
          ⟨[], false, ["b"]⟩ rfl⟩

theorem and_63_eq_mod (n : Nat) : n &&& 63 = n % 64 := by
  have h1 : (63 : Nat) = 2 ^ 6 - 1 := by norm_num
  have h2 : (64 : Nat) = 2 ^ 6 := by norm_num
  rw [h1, h2, Nat.and_pow_two_sub_one_eq_mod]

theorem shr18_and_63 (n : Nat) : (n >>> 18) &&& 63 = n / 262144 % 64 := by
  rw [Nat.shiftRight_eq_div_pow, and_63_eq_mod]

theorem shr12_and_63 (n : Nat) : (n >>> 12) &&& 63 = n / 4096 % 64 := by
  rw [Nat.shiftRight_eq_div_pow, and_63_eq_mod]

theorem shr6_and_63 (n : Nat) : (n >>> 6) &&& 63 = n / 64 % 64 := by
  rw [Nat.shiftRight_eq_div_pow, and_63_eq_mod]

theorem triple_eq (a b c : Nat) (hb : b < 256) (hc : c < 256) :
    a <<< 16 ||| b <<< 8 ||| c = a * 65536 + b * 256 + c := by
  have e1 : a <<< 16 = 2 ^ 16 * a := by rw [Nat.shiftLeft_eq, Nat.mul_comm]
  have e2 : b <<< 8 = b * 256 := by rw [Nat.shiftLeft_eq]
  have s1 : a <<< 16 ||| b <<< 8 = 2 ^ 16 * a + b * 256 := by
    rw [e1, e2, ← Nat.mul_add_lt_is_or (show b * 256 < 2 ^ 16 by omega) a]
  have s2 : 2 ^ 8 * (2 ^ 8 * a + b) + c = 2 ^ 8 * (2 ^ 8 * a + b) ||| c :=
    Nat.mul_add_lt_is_or (show c < 2 ^ 8 by omega) (2 ^ 8 * a + b)
  have harith : 2 ^ 8 * (2 ^ 8 * a + b) = 2 ^ 16 * a + b * 256 := by ring
  rw [harith] at s2
  rw [s1, ← s2]
  ring

theorem base64_eq_rfc : ∀ l : List Nat, (∀ x ∈ l, x < 256) →
    base64_encode l = rfc4648_encode l
  | [], _ => rfl
  | [a], _ => by
      have hT : a <<< 16 = a * 65536 := by rw [Nat.shiftLeft_eq]
      simp only [base64_encode, rfc4648_encode, b64char]
      rw [hT, shr18_and_63, shr12_and_63]
  | [a, b], h => by
      have hb : b < 256 := h b (by simp)
      have hT : a <<< 16 ||| b <<< 8 = a * 65536 + b * 256 := by
        have := triple_eq a b 0 hb (by norm_num)
        simpa using this
      simp only [base64_encode, rfc4648_encode, b64char]
      rw [hT, shr18_and_63, shr12_and_63, shr6_and_63]
  | a :: b :: c :: rest, h => by
      have hb : b < 256 := h b (by simp)
      have hc : c < 256 := h c (by simp)
      have ih := base64_eq_rfc rest (fun x hx => h x (by simp [hx]))
      simp only [base64_encode, rfc4648_encode, b64char]
      rw [triple_eq a b c hb hc, shr18_and_63, shr12_and_63, shr6_and_63,
          and_63_eq_mod, ih]

set_option maxRecDepth 4096 in
/-- Claim C8: the hex rendering of a byte run is lowercase hex pairs
zero-padded per byte with no separators, the base64 rendering coincides
with RFC 4648 base64 with padding over 3-byte groups, and on the bytes
`[0xDE, 0xAD]` they produce `"dead"` and `"3q0="`. -/
theorem c8_byte_encodings :
    (∀ l : List Nat, (∀ x ∈ l, x < 256) → base64_encode l = rfc4648_encode l) ∧
      (∀ b : Nat, b < 256 → (hexByte b).length = 2 ∧
        ∀ ch ∈ hexByte b, ch ∈ "0123456789abcdef".data) ∧
      hex_encode [0xDE, 0xAD] = "dead".data ∧
      base64_encode [0xDE, 0xAD] = "3q0=".data := by
  exact ⟨base64_eq_rfc, by decide, rfl, rfl⟩

/-- Witness for C8: the universally quantified conjuncts applied at
concrete inputs, hypotheses evaluated. -/
theorem c8_byte_encodings_witness :
    ((∀ x ∈ [0x01, 0x02, 0x03, 0x04], x < 256) ∧
        base64_encode [0x01, 0x02, 0x03, 0x04] = rfc4648_encode [0x01, 0x02, 0x03, 0x04]) ∧
      (171 < 256 ∧ ((hexByte 171).length = 2 ∧
        ∀ ch ∈ hexByte 171, ch ∈ "0123456789abcdef".data)) :=
  ⟨⟨by decide, c8_byte_encodings.1 _ (by decide)⟩,
   ⟨by decide, c8_byte_encodings.2.1 171 (by decide)⟩⟩

theorem chainOfLast_concat (l : List XMLElement) (c : XMLElement) :
    chainOfLast (l ++ [c]) = lastChain c := by
  induction l with
  | nil => rfl
  | cons a l ih =>
    cases l with
    | nil => rfl
    | cons b l2 => simpa [chainOfLast] using ih

theorem lastChain_close_addChild (q : PElem) (c : XMLElement) :
    lastChain (close (addChild q c)) = q.tag :: lastChain c := by
  simp [close, addChild, lastChain, chainOfLast_concat]

theorem assemble_chain : ∀ (stk : List PElem) (p : PElem),
    lastChain (assemble p stk) = (stk.map PElem.tag).reverse ++ lastChain (close p)
  | [], p => by simp [assemble]
  | q :: rest, p => by
      have ih := assemble_chain rest (addChild q (close p))
      simp only [assemble, ih, lastChain_close_addChild]
      have : (addChild q (close p)).tag = q.tag := rfl
      simp [List.append_assoc]

/-- Claim C3: an end tag is popped only when its resolved name equals the
tag of the stack top, a differing name fails with the mismatched-end-tag
error, and the stack read bottom-to-top is the ancestor chain of the
innermost open element in the tree the stack folds to — its reversed tag
list is an initial segment of the chain of last-started children from the
root. -/
theorem c3_stack_discipline :
    (∀ (mr : Bool) (s : DState) (top : PElem) (rest : List PElem) (nm : String)
        (rs1 : RState),
      s.stack = top :: rest →
      (mr = true → rest ≠ []) →
      read_interned_string s.rs = .ok (nm, rs1) →
      (top.tag ≠ nm → handleEndTag mr 0x30 s = .error .mismatchedEndTag) ∧
      (∀ t, handleEndTag mr 0x30 s = .ok (.cont t) →
        nm = top.tag ∧
        t.stack = (match rest with
                   | [] => ([] : List PElem)
                   | q :: r => addChild q (close top) :: r))) ∧
    (∀ (p : PElem) (stk : List PElem),
      ((p :: stk).map PElem.tag).reverse <+: lastChain (assemble p stk)) := by
  constructor
  · intro mr s top rest nm rs1 hstack hmr hread
    have hcond : ¬(s.stack.isEmpty = true ∨ (mr = true ∧ s.stack.length = 1)) := by
      rw [hstack]
      rintro (h | ⟨h1, h2⟩)
      · simp at h
      · have := hmr h1
        simp at h2
        exact this h2
    constructor
    · intro hne
      unfold handleEndTag
      rw [if_neg (by norm_num), if_neg hcond, hread]
      simp only
      rw [hstack]
      simp [hne]
    · intro t ht
      unfold handleEndTag at ht
      rw [if_neg (by norm_num), if_neg hcond, hread, hstack] at ht
      split at ht
      · exact absurd ht (by simp)
      · rename_i q r hqr
        injection hqr with hpair
        injection hpair with hq hr
        subst hq
        subst hr
        split at ht
        · rename_i habs
          simp at habs
        · rename_i top2 rest2 hcons
          injection hcons with htop hrest
          subst htop
          subst hrest
          split at ht
          · cases ht
          · rename_i hne
            refine ⟨(by simpa using hne : top.tag = nm).symm, ?_⟩
            split at ht
            · cases ht
              rfl
            · cases ht
              rfl
  · intro p stk
    refine ⟨(lastChain (close p)).tail, ?_⟩
    rw [assemble_chain]
    have : lastChain (close p) = p.tag :: (lastChain (close p)).tail := by
      simp [close, lastChain]
    rw [this]
    simp

/-- Witness for C3: a mismatched end tag at a concrete state (stack top
`"a"`, resolved name `"b"`). -/
theorem c3_stack_discipline_witness :
    handleEndTag false 0x30 ⟨⟨[0x00, 0x00], false, ["b"]⟩, true, false,
        [⟨"a", "", [], []⟩], none⟩ = .error .mismatchedEndTag :=
  (c3_stack_discipline.1 false
      ⟨⟨[0x00, 0x00], false, ["b"]⟩, true, false, [⟨"a", "", [], []⟩], none⟩
      ⟨"a", "", [], []⟩ [] "b" ⟨[0x00, 0x00].drop 2, false, ["b"]⟩
      rfl (by simp) rfl).1 (by decide)

/-- Claim C6: a text token whose payload is all whitespace is discarded
before the empty-stack check — the state is unchanged apart from the
consumed bytes, no node's text is touched, and no error is possible even
with an empty stack. -/
theorem c6_whitespace_text (s : DState) (v : String) (rs1 : RState)
    (h : read_string_raw s.rs = .ok (v, rs1))
    (hw : v.data.all (fun c => is_space c.toNat) = true) :
    handleText s = .ok (.cont { s with rs := rs1 }) := by
  unfold handleText
  rw [h]
  simp [hw]

/-- Witness for C6: a one-space payload with an empty open-element
stack. -/
theorem c6_whitespace_text_witness :
    read_string_raw ⟨[0x00, 0x01, 0x20], false, []⟩ = .ok (" ", ⟨[], false, []⟩) ∧
      handleText ⟨⟨[0x00, 0x01, 0x20], false, []⟩, true, false, [], none⟩ =
        .ok (.cont ⟨⟨[], false, []⟩, true, false, [], none⟩) :=
  ⟨rfl, c6_whitespace_text ⟨⟨[0x00, 0x01, 0x20], false, []⟩, true, false, [], none⟩
          " " ⟨[], false, []⟩ rfl (by decide)⟩

theorem read_int_parts (rs : RState) (v : Int) (rs' : RState)
    (h : read_int rs = .ok (v, rs')) :
    rs'.interned = rs.interned ∧ rs'.eofbit = rs.eofbit ∧
      rs'.data.length + 4 = rs.data.length := by
  unfold read_int at h
  split at h
  · simp only [Except.ok.injEq, Prod.mk.injEq] at h
    obtain ⟨-, h2⟩ := h
    subst h2
    simp_all
  · cases h

/-- Counterexample to C5: an unknown token kind (low nibble 5) whose type
tag is `TYPE_NULL` (0x10, token byte 0x15) is not a no-op — the decode
fails with the unexpected-token-type error (under the claim it would be
skipped and the decode would end with the no-root-element error); dually, a
*zero* type nibble (token byte 0x05), which the claim sends to the failure
branch, is the case the code skips as a no-op. -/
theorem c5_null_type_counterexample :
    readAbx false [0x41, 0x42, 0x58, 0x00, 0x10, 0x15, 0x11] =
        .error .unexpectedXmlType ∧
      readAbx false [0x41, 0x42, 0x58, 0x00, 0x10, 0x05, 0x11] =
        .error .noRootElement :=
  ⟨rfl, rfl⟩

/-- Amended C5: for a token of unknown kind, a token byte with a *zero*
type nibble is a no-op; type tags int, string and interned-string consume
and discard their payload (the stack, completed root and intern table are
untouched); every other type tag — the null tag 0x10 included — fails with
the unexpected-token-type error. -/
theorem c5_unknown_kind_amended (s : DState) (dataType : Nat) :
    (dataType = 0x00 → handleUnknown dataType s = .ok (.cont s)) ∧
      (dataType = 0x60 → ∀ t, handleUnknown dataType s = .ok (.cont t) →
        t.stack = s.stack ∧ t.rootDone = s.rootDone ∧ t.rs.interned = s.rs.interned ∧
          t.rs.data.length + 4 = s.rs.data.length) ∧
      ((dataType = 0x20 ∨ dataType = 0x30) → ∀ t, handleUnknown dataType s = .ok (.cont t) →
        t.stack = s.stack ∧ t.rootDone = s.rootDone ∧ t.rs.interned = s.rs.interned ∧
          t.rs.data.length ≤ s.rs.data.length) ∧
      (dataType ≠ 0x00 ∧ dataType ≠ 0x20 ∧ dataType ≠ 0x30 ∧ dataType ≠ 0x60 →
        handleUnknown dataType s = .error .unexpectedXmlType) := by
  refine ⟨?_, ?_, ?_, ?_⟩
  · intro h
    subst h
    rfl
  · intro h t ht
    subst h
    unfold handleUnknown at ht
    rw [if_pos (by norm_num), if_pos rfl] at ht
    cases hri : read_int s.rs with
    | error e => rw [hri] at ht; cases ht
    | ok p =>
      obtain ⟨v, rs1⟩ := p
      rw [hri] at ht
      cases ht
      have := read_int_parts s.rs v rs1 hri
      exact ⟨rfl, rfl, this.1, this.2.2⟩
  · intro h t ht
    unfold handleUnknown at ht
    rw [if_pos (by rcases h with h | h <;> subst h <;> norm_num),
        if_neg (by rcases h with h | h <;> subst h <;> norm_num), if_pos h] at ht
    cases hrr : read_string_raw s.rs with
    | error e => rw [hrr] at ht; cases ht
    | ok p =>
      obtain ⟨v, rs1⟩ := p
      rw [hrr] at ht
      cases ht
      have := read_string_raw_parts s.rs v rs1 hrr
      exact ⟨rfl, rfl, this.1, this.2.2⟩
  · intro h
    unfold handleUnknown
    rw [if_pos h.1, if_neg h.2.2.2, if_neg (by push_neg; exact ⟨h.2.1, h.2.2.1⟩)]

/-- Witness for the amended C5: the null type tag on an unknown token kind
at a concrete state fails. -/
theorem c5_unknown_kind_amended_witness :
    handleUnknown 0x10 ⟨⟨[], false, []⟩, true, false, [], none⟩ =
      .error .unexpectedXmlType :=
  (c5_unknown_kind_amended ⟨⟨[], false, []⟩, true, false, [], none⟩ 0x10).2.2.2
    (by norm_num)

/-- Claim C9: a start tag arriving on an empty stack never fails — whatever
the completed-root state, it pushes a single fresh element which becomes
the root; concretely, after `<a><c/></a>` has closed, `<b/>` replaces it
and the returned tree is exactly the `b` element, the earlier subtree
absent. -/
theorem c9_root_replacement :
    (∀ (s : DState) (nm : String) (rs1 : RState),
      s.stack = [] →
      read_interned_string s.rs = .ok (nm, rs1) →
      handleStartTag 0x30 s = .ok (.cont { s with rs := rs1, stack := [⟨nm, "", [], []⟩] })) ∧
      readAbx false [0x41, 0x42, 0x58, 0x00, 0x10,
          0x32, 0xFF, 0xFF, 0x00, 0x01, 0x61,
          0x32, 0xFF, 0xFF, 0x00, 0x01, 0x63,
          0x33, 0x00, 0x01, 0x33, 0x00, 0x00,
          0x32, 0xFF, 0xFF, 0x00, 0x01, 0x62,
          0x33, 0x00, 0x02, 0x11] = .ok (.node "b" "" [] []) := by
  constructor
  · intro s nm rs1 hstack hread
    unfold handleStartTag
    rw [if_neg (by norm_num), hread, hstack]
  · rfl

/-- Witness for C9: the start tag pushed on an empty stack with a
previously completed root still recorded. -/
theorem c9_root_replacement_witness :
    handleStartTag 0x30 ⟨⟨[0xFF, 0xFF, 0x00, 0x01, 0x64], false, []⟩, true, true,
        [], some (.node "a" "" [] [])⟩ =
      .ok (.cont ⟨⟨[], false, ["d"]⟩, true, true, [⟨"d", "", [], []⟩],
        some (.node "a" "" [] [])⟩) :=
  c9_root_replacement.1
    ⟨⟨[0xFF, 0xFF, 0x00, 0x01, 0x64], false, []⟩, true, true, [],
      some (.node "a" "" [] [])⟩ "d" ⟨[], false, ["d"]⟩ rfl rfl

/-- Claim C1 behaviour: the two-sibling-top-level input succeeds in
multi-root mode under the synthetic wrapper — but in single-root mode it
does *not* fail: the decode succeeds and silently returns only the second
top-level element (`root_closed` is assigned at line 312 and never read, so
nothing rejects a start tag after the root has closed). -/
theorem c1_two_roots_behaviour :
    readAbx true [0x41, 0x42, 0x58, 0x00, 0x10,
        0x32, 0xFF, 0xFF, 0x00, 0x01, 0x61, 0x33, 0x00, 0x00,
        0x32, 0xFF, 0xFF, 0x00, 0x01, 0x62, 0x33, 0x00, 0x01, 0x11] =
      .ok (.node "root" "" [] [.node "a" "" [] [], .node "b" "" [] []]) ∧
      readAbx false [0x41, 0x42, 0x58, 0x00, 0x10,
          0x32, 0xFF, 0xFF, 0x00, 0x01, 0x61, 0x33, 0x00, 0x00,
          0x32, 0xFF, 0xFF, 0x00, 0x01, 0x62, 0x33, 0x00, 0x01, 0x11] =
        .ok (.node "b" "" [] []) :=
  ⟨rfl, rfl⟩

/-- Claim C4 behaviour: input exhausted exactly at a token boundary does
*not* terminate the loop cleanly — `stream.eof()` is still false there
(the `eofbit` is set only by a failed read), so the next `read_byte` fails
with "Could not read byte"; end-of-input mid-token is a read failure; a
decode that ends via an end-of-document token with no root assigned fails
with the no-root-element error. -/
theorem c4_eof_behaviour :
    readAbx false [0x41, 0x42, 0x58, 0x00, 0x10] = .error .couldNotReadByte ∧
      readAbx false [0x41, 0x42, 0x58, 0x00, 0x10, 0x32, 0xFF] =
        .error .couldNotReadShort ∧
      readAbx false [0x41, 0x42, 0x58, 0x00, 0x10, 0x11] = .error .noRootElement :=
  ⟨rfl, rfl, rfl⟩

theorem read_byte_err_ne (rs : RState) (e : Err) (h : read_byte rs = .error e) :
    e ≠ .noRootElement := by
  unfold read_byte at h
  split at h <;> cases h <;> decide

theorem read_short_err_ne (rs : RState) (e : Err) (h : read_short rs = .error e) :
    e ≠ .noRootElement := by
  unfold read_short at h
  split at h <;> cases h <;> decide

theorem read_unsigned_short_err_ne (rs : RState) (e : Err)
    (h : read_unsigned_short rs = .error e) : e ≠ .noRootElement := by
  unfold read_unsigned_short at h
  split at h <;> cases h <;> decide

theorem read_int_err_ne (rs : RState) (e : Err) (h : read_int rs = .error e) :
    e ≠ .noRootElement := by
  unfold read_int at h
  split at h <;> cases h <;> decide

theorem read_long_err_ne (rs : RState) (e : Err) (h : read_long rs = .error e) :
    e ≠ .noRootElement := by
  unfold read_long at h
  split at h <;> cases h <;> decide

theorem read_float_err_ne (rs : RState) (e : Err) (h : read_float rs = .error e) :
    e ≠ .noRootElement := by
  unfold read_float at h
  split at h <;> cases h <;> decide

theorem read_double_err_ne (rs : RState) (e : Err) (h : read_double rs = .error e) :
    e ≠ .noRootElement := by
  unfold read_double at h
  split at h <;> cases h <;> decide

theorem read_string_raw_err_ne (rs : RState) (e : Err)
    (h : read_string_raw rs = .error e) : e ≠ .noRootElement := by
  unfold read_string_raw at h
  cases hs : read_unsigned_short rs with
  | error e1 =>
    rw [hs] at h
    cases h
    exact read_unsigned_short_err_ne rs e hs
  | ok p =>
    obtain ⟨l, rs1⟩ := p
    rw [hs] at h
    simp only at h
    split at h
    · cases h; decide
    · cases h

theorem read_interned_string_err_ne (rs : RState) (e : Err)
    (h : read_interned_string rs = .error e) : e ≠ .noRootElement := by
  unfold read_interned_string at h
  cases hs : read_short rs with
  | error e1 =>
    rw [hs] at h
    cases h
    exact read_short_err_ne rs e hs
  | ok p =>
    obtain ⟨r, rs1⟩ := p
    rw [hs] at h
    simp only at h
    split at h
    · cases hraw : read_string_raw rs1 with
      | error e2 =>
        rw [hraw] at h
        cases h
        exact read_string_raw_err_ne rs1 e hraw
      | ok q =>
        obtain ⟨v, rs2⟩ := q
        rw [hraw] at h
        cases h
    · split at h
      · cases h; decide
      · split at h
        · cases h
        · cases h; decide

theorem decodeAttrValue_err_ne (dt : Nat) (rs : RState) (e : Err)
    (h : decodeAttrValue dt rs = .error e) : e ≠ .noRootElement := by
  unfold decodeAttrValue at h
  by_cases h1 : dt = 0x10
  · rw [if_pos h1] at h
    cases h
  rw [if_neg h1] at h
  by_cases h2 : dt = 0xC0
  · rw [if_pos h2] at h
    cases h
  rw [if_neg h2] at h
  by_cases h3 : dt = 0xD0
  · rw [if_pos h3] at h
    cases h
  rw [if_neg h3] at h
  by_cases h4 : dt = 0x60
  · rw [if_pos h4] at h
    cases hr : read_int rs with
    | error e1 =>
      rw [hr] at h
      cases h
      exact read_int_err_ne rs e hr
    | ok p =>
      obtain ⟨v1, rs1⟩ := p
      rw [hr] at h
      cases h
  rw [if_neg h4] at h
  by_cases h5 : dt = 0x70
  · rw [if_pos h5] at h
    cases hr : read_int rs with
    | error e1 =>
      rw [hr] at h
      cases h
      exact read_int_err_ne rs e hr
    | ok p =>
      obtain ⟨v1, rs1⟩ := p
      rw [hr] at h
      cases h
  rw [if_neg h5] at h
  by_cases h6 : dt = 0x80
  · rw [if_pos h6] at h
    cases hr : read_long rs with
    | error e1 =>
      rw [hr] at h
      cases h
      exact read_long_err_ne rs e hr
    | ok p =>
      obtain ⟨v1, rs1⟩ := p
      rw [hr] at h
      cases h
  rw [if_neg h6] at h
  by_cases h7 : dt = 0x90
  · rw [if_pos h7] at h
    cases hr : read_long rs with
    | error e1 =>
      rw [hr] at h
      cases h
      exact read_long_err_ne rs e hr
    | ok p =>
      obtain ⟨v1, rs1⟩ := p
      rw [hr] at h
      cases h
  rw [if_neg h7] at h
  by_cases h8 : dt = 0xA0
  · rw [if_pos h8] at h
    cases hr : read_float rs with
    | error e1 =>
      rw [hr] at h
      cases h
      exact read_float_err_ne rs e hr
    | ok p =>
      obtain ⟨v1, rs1⟩ := p
      rw [hr] at h
      cases h
  rw [if_neg h8] at h
  by_cases h9 : dt = 0xB0
  · rw [if_pos h9] at h
    cases hr : read_double rs with
    | error e1 =>
      rw [hr] at h
      cases h
      exact read_double_err_ne rs e hr
    | ok p =>
      obtain ⟨v1, rs1⟩ := p
      rw [hr] at h
      cases h
  rw [if_neg h9] at h
  by_cases h10 : dt = 0x20
  · rw [if_pos h10] at h
    exact read_string_raw_err_ne rs e h
  rw [if_neg h10] at h
  by_cases h11 : dt = 0x30
  · rw [if_pos h11] at h
    exact read_interned_string_err_ne rs e h
  rw [if_neg h11] at h
  by_cases h12 : dt = 0x40
  · rw [if_pos h12] at h
    cases hr : read_short rs with
    | error e1 =>
      rw [hr] at h
      cases h
      exact read_short_err_ne rs e hr
    | ok p =>
      obtain ⟨v1, rs1⟩ := p
      rw [hr] at h
      replace h :
          (if rs1.data.length < (v1.emod 65536).toNat then
            (Except.error Err.couldNotReadBytes : Except Err (String × RState))
          else
            Except.ok (String.mk (hex_encode (rs1.data.take (v1.emod 65536).toNat)),
              { rs1 with data := rs1.data.drop (v1.emod 65536).toNat })) =
          Except.error e := h
      split at h
      · cases h
        decide
      · cases h
  rw [if_neg h12] at h
  by_cases h13 : dt = 0x50
  · rw [if_pos h13] at h
    cases hr : read_short rs with
    | error e1 =>
      rw [hr] at h
      cases h
      exact read_short_err_ne rs e hr
    | ok p =>
      obtain ⟨v1, rs1⟩ := p
      rw [hr] at h
      replace h :
          (if rs1.data.length < (v1.emod 65536).toNat then
            (Except.error Err.couldNotReadBytes : Except Err (String × RState))
          else
            Except.ok (String.mk (base64_encode (rs1.data.take (v1.emod 65536).toNat)),
              { rs1 with data := rs1.data.drop (v1.emod 65536).toNat })) =
          Except.error e := h
      split at h
      · cases h
        decide
      · cases h
  rw [if_neg h13] at h
  cases h
  decide

theorem handleStartDocument_err_ne (dt : Nat) (s : DState) (e : Err)
    (h : handleStartDocument dt s = .error e) : e ≠ .noRootElement := by
  unfold handleStartDocument at h
  split at h
  · cases h
    decide
  · cases h

theorem handleEndDocument_err_ne (mr : Bool) (dt : Nat) (s : DState) (e : Err)
    (h : handleEndDocument mr dt s = .error e) : e ≠ .noRootElement := by
  unfold handleEndDocument at h
  split at h
  · cases h
    decide
  · split at h
    · cases h
      decide
    · cases h

theorem handleStartTag_err_ne (dt : Nat) (s : DState) (e : Err)
    (h : handleStartTag dt s = .error e) : e ≠ .noRootElement := by
  unfold handleStartTag at h
  split at h
  · cases h
    decide
  · cases hread : read_interned_string s.rs with
    | error e1 =>
      rw [hread] at h
      cases h
      exact read_interned_string_err_ne _ _ hread
    | ok p =>
      obtain ⟨nm, rs1⟩ := p
      rw [hread] at h
      cases h

theorem handleEndTag_err_ne (mr : Bool) (dt : Nat) (s : DState) (e : Err)
    (h : handleEndTag mr dt s = .error e) : e ≠ .noRootElement := by
  unfold handleEndTag at h
  split at h
  · cases h
    decide
  · split at h
    · cases h
      decide
    · cases hread : read_interned_string s.rs with
      | error e1 =>
        rw [hread] at h
        cases h
        exact read_interned_string_err_ne _ _ hread
      | ok p =>
        obtain ⟨nm, rs1⟩ := p
        rw [hread] at h
        simp only at h
        iterate 5 (all_goals (try split at h))
        all_goals
          first
            | (cases h
               decide)
            | cases h

theorem handleText_err_ne (s : DState) (e : Err)
    (h : handleText s = .error e) : e ≠ .noRootElement := by
  unfold handleText at h
  cases hread : read_string_raw s.rs with
  | error e1 =>
    rw [hread] at h
    cases h
    exact read_string_raw_err_ne _ _ hread
  | ok p =>
    obtain ⟨v, rs1⟩ := p
    rw [hread] at h
    simp only at h
    split at h
    · cases h
    · split at h
      · cases h
        decide
      · cases h

theorem handleAttribute_err_ne (mr : Bool) (dt : Nat) (s : DState) (e : Err)
    (h : handleAttribute mr dt s = .error e) : e ≠ .noRootElement := by
  unfold handleAttribute at h
  split at h
  · cases h
    decide
  · cases hread : read_interned_string s.rs with
    | error e1 =>
      rw [hread] at h
      cases h
      exact read_interned_string_err_ne _ _ hread
    | ok p =>
      obtain ⟨nm, rs1⟩ := p
      rw [hread] at h
      simp only at h
      cases hval : decodeAttrValue dt rs1 with
      | error e1 =>
        rw [hval] at h
        cases h
        exact decodeAttrValue_err_ne _ _ _ hval
      | ok q =>
        obtain ⟨v, rs2⟩ := q
        rw [hval] at h
        simp only at h
        split at h
        · cases h
          decide
        · cases h

theorem handleUnknown_err_ne (dt : Nat) (s : DState) (e : Err)
    (h : handleUnknown dt s = .error e) : e ≠ .noRootElement := by
  unfold handleUnknown at h
  split at h
  · split at h
    · cases hread : read_int s.rs with
      | error e1 =>
        rw [hread] at h
        cases h
        exact read_int_err_ne _ _ hread
      | ok p =>
        obtain ⟨v, rs1⟩ := p
        rw [hread] at h
        cases h
    · split at h
      · cases hread : read_string_raw s.rs with
        | error e1 =>
          rw [hread] at h
          cases h
          exact read_string_raw_err_ne _ _ hread
        | ok p =>
          obtain ⟨v, rs1⟩ := p
          rw [hread] at h
          cases h
      · cases h
        decide
  · cases h

theorem stepit_err_ne (mr : Bool) (s : DState) (e : Err)
    (h : stepit mr s = .error e) : e ≠ .noRootElement := by
  unfold stepit at h
  cases hb : read_byte s.rs with
  | error e1 =>
    rw [hb] at h
    cases h
    exact read_byte_err_ne _ _ hb
  | ok p =>
    obtain ⟨token, rs0⟩ := p
    rw [hb] at h
    simp only at h
    split at h
    · exact handleStartDocument_err_ne _ _ _ h
    · split at h
      · exact handleEndDocument_err_ne _ _ _ _ h
      · split at h
        · exact handleStartTag_err_ne _ _ _ h
        · split at h
          · exact handleEndTag_err_ne _ _ _ _ h
          · split at h
            · exact handleText_err_ne _ _ h
            · split at h
              · exact handleAttribute_err_ne _ _ _ _ h
              · exact handleUnknown_err_ne _ _ _ h

theorem loopFuel_err_ne : ∀ (fuel : Nat) (mr : Bool) (s : DState) (e : Err),
    loopFuel fuel mr s = .error e → e ≠ .noRootElement
  | 0, mr, s, e => by
      intro h
      unfold loopFuel at h
      cases h
      decide
  | fuel + 1, mr, s, e => by
      intro h
      unfold loopFuel at h
      split at h
      · cases h
      · cases hst : stepit mr s with
        | error e1 =>
          rw [hst] at h
          cases h
          exact stepit_err_ne _ _ _ hst
        | ok out =>
          rw [hst] at h
          cases out with
          | finish t => cases h
          | cont t => exact loopFuel_err_ne fuel mr t e h

theorem skipPayload_err_ne (token : Nat) (rs : RState) (e : Err)
    (h : skipPayload token rs = .error e) : e ≠ .noRootElement := by
  unfold skipPayload at h
  split at h
  · cases h
  · split at h
    · cases hr : read_int rs with
      | error e1 =>
        rw [hr] at h
        cases h
        exact read_int_err_ne _ _ hr
      | ok p =>
        obtain ⟨v, rs1⟩ := p
        rw [hr] at h
        cases h
    · split at h
      · cases hr : read_long rs with
        | error e1 =>
          rw [hr] at h
          cases h
          exact read_long_err_ne _ _ hr
        | ok p =>
          obtain ⟨v, rs1⟩ := p
          rw [hr] at h
          cases h
      · split at h
        · cases hr : read_float rs with
          | error e1 =>
            rw [hr] at h
            cases h
            exact read_float_err_ne _ _ hr
          | ok p =>
            obtain ⟨v, rs1⟩ := p
            rw [hr] at h
            cases h
        · split at h
          · cases hr : read_double rs with
            | error e1 =>
              rw [hr] at h
              cases h
              exact read_double_err_ne _ _ hr
            | ok p =>
              obtain ⟨v, rs1⟩ := p
              rw [hr] at h
              cases h
          · split at h
            · cases hr : read_string_raw rs with
              | error e1 =>
                rw [hr] at h
                cases h
                exact read_string_raw_err_ne _ _ hr
              | ok p =>
                obtain ⟨v, rs1⟩ := p
                rw [hr] at h
                cases h
            · split at h
              · cases hr : read_short rs with
                | error e1 =>
                  rw [hr] at h
                  cases h
                  exact read_short_err_ne _ _ hr
                | ok p =>
                  obtain ⟨v, rs1⟩ := p
                  rw [hr] at h
                  cases h
              · split at h
                · cases h
                · cases h

theorem skipHeaderFuel_err_ne : ∀ (fuel : Nat) (rs : RState) (e : Err),
    skipHeaderFuel fuel rs = .error e → e ≠ .noRootElement
  | 0, rs, e => by
      intro h
      unfold skipHeaderFuel at h
      cases h
      decide
  | fuel + 1, rs, e => by
      intro h
      unfold skipHeaderFuel at h
      cases hb : read_byte rs with
      | error e1 =>
        rw [hb] at h
        cases h
        exact read_byte_err_ne _ _ hb
      | ok p =>
        obtain ⟨token, rs1⟩ := p
        rw [hb] at h
        simp only at h
        split at h
        · cases h
        · cases hsp : skipPayload token rs1 with
          | error e1 =>
            rw [hsp] at h
            cases h
            exact skipPayload_err_ne _ _ _ hsp
          | ok rs2 =>
            rw [hsp] at h
            exact skipHeaderFuel_err_ne fuel rs2 e h

theorem handleStartDocument_stack (dt : Nat) (s : DState) (out : StepOut)
    (h : handleStartDocument dt s = .ok out) : out.state.stack = s.stack := by
  unfold handleStartDocument at h
  split at h
  · cases h
  · cases h
    rfl

theorem handleEndDocument_stack (mr : Bool) (dt : Nat) (s : DState) (out : StepOut)
    (h : handleEndDocument mr dt s = .ok out) : out.state.stack = s.stack := by
  unfold handleEndDocument at h
  split at h
  · cases h
  · split at h
    · cases h
    · cases h
      rfl

theorem handleStartTag_stack_ne (dt : Nat) (s : DState) (out : StepOut)
    (h : handleStartTag dt s = .ok out) : out.state.stack ≠ [] := by
  unfold handleStartTag at h
  split at h
  · cases h
  · cases hread : read_interned_string s.rs with
    | error e1 =>
      rw [hread] at h
      cases h
    | ok p =>
      obtain ⟨nm, rs1⟩ := p
      rw [hread] at h
      cases h
      simp [StepOut.state]

theorem handleEndTag_stack_mr (dt : Nat) (s : DState) (out : StepOut)
    (h : handleEndTag true dt s = .ok out) : out.state.stack ≠ [] := by
  unfold handleEndTag at h
  split at h
  · cases h
  · split at h
    · cases h
    · rename_i hguard
      cases hread : read_interned_string s.rs with
      | error e1 =>
        rw [hread] at h
        cases h
      | ok p =>
        obtain ⟨nm, rs1⟩ := p
        rw [hread] at h
        simp only at h
        split at h
        · cases h
        · rename_i top rest heq
          split at h
          · cases h
          · split at h
            · exact absurd (Or.inr ⟨rfl, by rw [heq]; rfl⟩) hguard
            · cases h
              simp [StepOut.state]

theorem handleText_stack_ne (s : DState) (out : StepOut)
    (hne : s.stack ≠ []) (h : handleText s = .ok out) : out.state.stack ≠ [] := by
  unfold handleText at h
  cases hread : read_string_raw s.rs with
  | error e1 =>
    rw [hread] at h
    cases h
  | ok p =>
    obtain ⟨v, rs1⟩ := p
    rw [hread] at h
    simp only at h
    split at h
    · cases h
      exact hne
    · split at h
      · cases h
      · cases h
        simp [StepOut.state]

theorem handleAttribute_stack_ne (mr : Bool) (dt : Nat) (s : DState) (out : StepOut)
    (h : handleAttribute mr dt s = .ok out) : out.state.stack ≠ [] := by
  unfold handleAttribute at h
  split at h
  · cases h
  · cases hread : read_interned_string s.rs with
    | error e1 =>
      rw [hread] at h
      cases h
    | ok p =>
      obtain ⟨nm, rs1⟩ := p
      rw [hread] at h
      simp only at h
      cases hval : decodeAttrValue dt rs1 with
      | error e1 =>
        rw [hval] at h
        cases h
      | ok q =>
        obtain ⟨v, rs2⟩ := q
        rw [hval] at h
        simp only at h
        split at h
        · cases h
        · cases h
          simp [StepOut.state]

theorem handleUnknown_stack (dt : Nat) (s : DState) (out : StepOut)
    (h : handleUnknown dt s = .ok out) : out.state.stack = s.stack := by
  unfold handleUnknown at h
  split at h
  · split at h
    · cases hr : read_int s.rs with
      | error e1 =>
        rw [hr] at h
        cases h
      | ok p =>
        obtain ⟨v, rs1⟩ := p
        rw [hr] at h
        cases h
        rfl
    · split at h
      · cases hr : read_string_raw s.rs with
        | error e1 =>
          rw [hr] at h
          cases h
        | ok p =>
          obtain ⟨v, rs1⟩ := p
          rw [hr] at h
          cases h
          rfl
      · cases h
  · cases h
    rfl

theorem stepit_stack_ne (s : DState) (out : StepOut)
    (hne : s.stack ≠ []) (h : stepit true s = .ok out) : out.state.stack ≠ [] := by
  unfold stepit at h
  cases hb : read_byte s.rs with
  | error e1 =>
    rw [hb] at h
    cases h
  | ok p =>
    obtain ⟨token, rs0⟩ := p
    rw [hb] at h
    simp only at h
    split at h
    · rw [handleStartDocument_stack _ _ _ h]
      exact hne
    · split at h
      · rw [handleEndDocument_stack _ _ _ _ h]
        exact hne
      · split at h
        · exact handleStartTag_stack_ne _ _ _ h
        · split at h
          · exact handleEndTag_stack_mr _ _ _ h
          · split at h
            · exact handleText_stack_ne { s with rs := rs0 } _ hne h
            · split at h
              · exact handleAttribute_stack_ne _ _ _ _ h
              · rw [handleUnknown_stack _ _ _ h]
                exact hne

theorem loopFuel_stack : ∀ (fuel : Nat) (s t : DState),
    s.stack ≠ [] → loopFuel fuel true s = .ok t → t.stack ≠ []
  | 0, s, t => by
      intro hne h
      unfold loopFuel at h
      cases h
  | fuel + 1, s, t => by
      intro hne h
      unfold loopFuel at h
      split at h
      · cases h
        exact hne
      · cases hst : stepit true s with
        | error e1 =>
          rw [hst] at h
          cases h
        | ok out =>
          rw [hst] at h
          have hout := stepit_stack_ne s out hne hst
          cases out with
          | finish u =>
            cases h
            exact hout
          | cont u => exact loopFuel_stack fuel u t hout h

/-- Claim C10: in multi-root mode the synthetic wrapper is pushed before the
loop reads any token (see `readAbx`) and no end tag can pop it — an end tag
arriving with only the wrapper on the stack fails with the
unexpected-end-tag error; consequently every loop step preserves a
non-empty stack, and a multi-root decode can never fail with the
no-root-element error. -/
theorem c10_multi_root_wrapper :
    (∀ (s : DState) (out : StepOut),
      s.stack ≠ [] → stepit true s = .ok out → (StepOut.state out).stack ≠ []) ∧
      (∀ s : DState, s.stack.length = 1 →
        handleEndTag true 0x30 s = .error .unexpectedEndTag) ∧
      (∀ input : List Nat, readAbx true input ≠ .error .noRootElement) := by
  refine ⟨stepit_stack_ne, ?_, ?_⟩
  · intro s hlen
    unfold handleEndTag
    rw [if_neg (by norm_num), if_pos (Or.inr ⟨rfl, hlen⟩)]
  · intro input h
    unfold readAbx at h
    split at h
    · split at h
      · split at h
        · rename_i e1 hsk
          injection h with h2
          exact absurd h2 (skipHeaderFuel_err_ne _ _ _ hsk)
        · rename_i rs hsk
          split at h
          · rename_i e1 hlp
            injection h with h2
            exact absurd h2 (loopFuel_err_ne _ _ _ _ hlp)
          · rename_i s1 hlp
            have hs1 : s1.stack ≠ [] := loopFuel_stack _ _ _ (by simp) hlp
            unfold finalize at h
            split at h
            · cases h
            · rename_i hnil
              exact hs1 hnil
      · injection h with h2
        exact absurd h2 (by decide)
    all_goals
      injection h with h2
      exact absurd h2 (by decide)

/-- Witness for C10: an end tag arriving when only the synthetic wrapper
remains on the stack. -/
theorem c10_multi_root_wrapper_witness :
    handleEndTag true 0x30 ⟨⟨[], false, []⟩, true, false, [⟨"root", "", [], []⟩], none⟩ =
      .error .unexpectedEndTag :=
  c10_multi_root_wrapper.2.1
    ⟨⟨[], false, []⟩, true, false, [⟨"root", "", [], []⟩], none⟩ rfl

theorem read_byte_parts (rs : RState) (v : Nat) (rs' : RState)
    (h : read_byte rs = .ok (v, rs')) :
    rs'.eofbit = rs.eofbit ∧ rs'.data.length + 1 = rs.data.length := by
  unfold read_byte at h
  split at h
  · cases h
  · simp only [Except.ok.injEq, Prod.mk.injEq] at h
    obtain ⟨-, h2⟩ := h
    subst h2
    simp_all

theorem read_long_parts (rs : RState) (v : Int) (rs' : RState)
    (h : read_long rs = .ok (v, rs')) :
    rs'.interned = rs.interned ∧ rs'.eofbit = rs.eofbit ∧
      rs'.data.length + 8 = rs.data.length := by
  unfold read_long at h
  split at h
  · simp only [Except.ok.injEq, Prod.mk.injEq] at h
    obtain ⟨-, h2⟩ := h
    subst h2
    simp_all
  · cases h

theorem read_float_parts (rs : RState) (v : Int) (rs' : RState)
    (h : read_float rs = .ok (v, rs')) :
    rs'.interned = rs.interned ∧ rs'.eofbit = rs.eofbit ∧
      rs'.data.length + 4 = rs.data.length := by
  unfold read_float at h
  split at h
  · simp only [Except.ok.injEq, Prod.mk.injEq] at h
    obtain ⟨-, h2⟩ := h
    subst h2
    simp_all
  · cases h

theorem read_double_parts (rs : RState) (v : Int) (rs' : RState)
    (h : read_double rs = .ok (v, rs')) :
    rs'.interned = rs.interned ∧ rs'.eofbit = rs.eofbit ∧
      rs'.data.length + 8 = rs.data.length := by
  unfold read_double at h
  split at h
  · simp only [Except.ok.injEq, Prod.mk.injEq] at h
    obtain ⟨-, h2⟩ := h
    subst h2
    simp_all
  · cases h

theorem read_interned_string_le (rs : RState) (v : String) (rs' : RState)
    (h : read_interned_string rs = .ok (v, rs')) :
    rs'.eofbit = rs.eofbit ∧ rs'.data.length ≤ rs.data.length := by
  unfold read_interned_string at h
  cases hs : read_short rs with
  | error e1 => rw [hs] at h; cases h
  | ok p =>
    obtain ⟨reference, rs1⟩ := p
    rw [hs] at h
    have h1 := read_short_parts rs reference rs1 hs
    simp only at h
    split at h
    · cases hraw : read_string_raw rs1 with
      | error e1 => rw [hraw] at h; cases h
      | ok q =>
        obtain ⟨value, rs2⟩ := q
        rw [hraw] at h
        have h2 := read_string_raw_parts rs1 value rs2 hraw
        simp only [Except.ok.injEq, Prod.mk.injEq] at h
        obtain ⟨-, h3⟩ := h
        subst h3
        refine ⟨by simp [h2.2.1, h1.2.1], ?_⟩
        have := h1.2.2
        have := h2.2.2
        simp only
        omega
    · split at h
      · cases h
      · split at h
        · simp only [Except.ok.injEq, Prod.mk.injEq] at h
          obtain ⟨-, h3⟩ := h
          subst h3
          exact ⟨h1.2.1, by omega⟩
        · cases h

theorem decodeAttrValue_le (dt : Nat) (rs : RState) (v : String) (rs2 : RState)
    (h : decodeAttrValue dt rs = .ok (v, rs2)) :
    rs2.data.length ≤ rs.data.length := by
  unfold decodeAttrValue at h
  by_cases hc0x10 : dt = 0x10
  · rw [if_pos hc0x10] at h
    cases h
    exact Nat.le_refl _
  rw [if_neg hc0x10] at h
  by_cases hc0xC0 : dt = 0xC0
  · rw [if_pos hc0xC0] at h
    cases h
    exact Nat.le_refl _
  rw [if_neg hc0xC0] at h
  by_cases hc0xD0 : dt = 0xD0
  · rw [if_pos hc0xD0] at h
    cases h
    exact Nat.le_refl _
  rw [if_neg hc0xD0] at h
  by_cases hc0x60 : dt = 0x60
  · rw [if_pos hc0x60] at h
    cases hr : read_int rs with
    | error e1 =>
      rw [hr] at h
      cases h
    | ok p =>
      obtain ⟨v1, rs1⟩ := p
      rw [hr] at h
      cases h
      have := read_int_parts _ _ _ hr
      omega
  rw [if_neg hc0x60] at h
  by_cases hc0x70 : dt = 0x70
  · rw [if_pos hc0x70] at h
    cases hr : read_int rs with
    | error e1 =>
      rw [hr] at h
      cases h
    | ok p =>
      obtain ⟨v1, rs1⟩ := p
      rw [hr] at h
      cases h
      have := read_int_parts _ _ _ hr
      omega
  rw [if_neg hc0x70] at h
  by_cases hc0x80 : dt = 0x80
  · rw [if_pos hc0x80] at h
    cases hr : read_long rs with
    | error e1 =>
      rw [hr] at h
      cases h
    | ok p =>
      obtain ⟨v1, rs1⟩ := p
      rw [hr] at h
      cases h
      have := read_long_parts _ _ _ hr
      omega
  rw [if_neg hc0x80] at h
  by_cases hc0x90 : dt = 0x90
  · rw [if_pos hc0x90] at h
    cases hr : read_long rs with
    | error e1 =>
      rw [hr] at h
      cases h
    | ok p =>
      obtain ⟨v1, rs1⟩ := p
      rw [hr] at h
      cases h
      have := read_long_parts _ _ _ hr
      omega
  rw [if_neg hc0x90] at h
  by_cases hc0xA0 : dt = 0xA0
  · rw [if_pos hc0xA0] at h
    cases hr : read_float rs with
    | error e1 =>
      rw [hr] at h
      cases h
    | ok p =>
      obtain ⟨v1, rs1⟩ := p
      rw [hr] at h
      cases h
      have := read_float_parts _ _ _ hr
      omega
  rw [if_neg hc0xA0] at h
  by_cases hc0xB0 : dt = 0xB0
  · rw [if_pos hc0xB0] at h
    cases hr : read_double rs with
    | error e1 =>
      rw [hr] at h
      cases h
    | ok p =>
      obtain ⟨v1, rs1⟩ := p
      rw [hr] at h
      cases h
      have := read_double_parts _ _ _ hr
      omega
  rw [if_neg hc0xB0] at h
  by_cases hc0x20 : dt = 0x20
  · rw [if_pos hc0x20] at h
    exact (read_string_raw_parts rs v rs2 h).2.2
  rw [if_neg hc0x20] at h
  by_cases hc0x30 : dt = 0x30
  · rw [if_pos hc0x30] at h
    exact (read_interned_string_le rs v rs2 h).2
  rw [if_neg hc0x30] at h
  by_cases hc0x40 : dt = 0x40
  · rw [if_pos hc0x40] at h
    cases hr : read_short rs with
    | error e1 =>
      rw [hr] at h
      cases h
    | ok p =>
      obtain ⟨v1, rs1⟩ := p
      rw [hr] at h
      replace h :
          (if rs1.data.length < (v1.emod 65536).toNat then
            (Except.error Err.couldNotReadBytes : Except Err (String × RState))
          else
            Except.ok (String.mk (hex_encode (rs1.data.take (v1.emod 65536).toNat)),
              { rs1 with data := rs1.data.drop (v1.emod 65536).toNat })) =
          Except.ok (v, rs2) := h
      split at h
      · cases h
      · cases h
        have := read_short_parts rs v1 rs1 hr
        simp only [List.length_drop]
        omega
  rw [if_neg hc0x40] at h
  by_cases hc0x50 : dt = 0x50
  · rw [if_pos hc0x50] at h
    cases hr : read_short rs with
    | error e1 =>
      rw [hr] at h
      cases h
    | ok p =>
      obtain ⟨v1, rs1⟩ := p
      rw [hr] at h
      replace h :
          (if rs1.data.length < (v1.emod 65536).toNat then
            (Except.error Err.couldNotReadBytes : Except Err (String × RState))
          else
            Except.ok (String.mk (base64_encode (rs1.data.take (v1.emod 65536).toNat)),
              { rs1 with data := rs1.data.drop (v1.emod 65536).toNat })) =
          Except.ok (v, rs2) := h
      split at h
      · cases h
      · cases h
        have := read_short_parts rs v1 rs1 hr
        simp only [List.length_drop]
        omega
  rw [if_neg hc0x50] at h
  cases h

theorem handleStartDocument_cont_le (dt : Nat) (s t : DState)
    (h : handleStartDocument dt s = .ok (.cont t)) :
    t.rs.data.length ≤ s.rs.data.length := by
  unfold handleStartDocument at h
  split at h
  · cases h
  · cases h
    exact Nat.le_refl _

theorem handleEndDocument_cont_le (mr : Bool) (dt : Nat) (s t : DState)
    (h : handleEndDocument mr dt s = .ok (.cont t)) :
    t.rs.data.length ≤ s.rs.data.length := by
  unfold handleEndDocument at h
  split at h
  · cases h
  · split at h
    · cases h
    · cases h

theorem handleStartTag_cont_le (dt : Nat) (s t : DState)
    (h : handleStartTag dt s = .ok (.cont t)) :
    t.rs.data.length ≤ s.rs.data.length := by
  unfold handleStartTag at h
  split at h
  · cases h
  · cases hread : read_interned_string s.rs with
    | error e1 =>
      rw [hread] at h
      cases h
    | ok p =>
      obtain ⟨nm, rs1⟩ := p
      rw [hread] at h
      cases h
      exact (read_interned_string_le _ _ _ hread).2

theorem handleEndTag_cont_le (mr : Bool) (dt : Nat) (s t : DState)
    (h : handleEndTag mr dt s = .ok (.cont t)) :
    t.rs.data.length ≤ s.rs.data.length := by
  unfold handleEndTag at h
  split at h
  · cases h
  · split at h
    · cases h
    · cases hread : read_interned_string s.rs with
      | error e1 =>
        rw [hread] at h
        cases h
      | ok p =>
        obtain ⟨nm, rs1⟩ := p
        rw [hread] at h
        simp only at h
        have hle := (read_interned_string_le _ _ _ hread).2
        split at h
        · cases h
        · split at h
          · cases h
          · split at h
            · cases h
              exact hle
            · cases h
              exact hle

theorem handleText_cont_le (s t : DState)
    (h : handleText s = .ok (.cont t)) :
    t.rs.data.length ≤ s.rs.data.length := by
  unfold handleText at h
  cases hread : read_string_raw s.rs with
  | error e1 =>
    rw [hread] at h
    cases h
  | ok p =>
    obtain ⟨v, rs1⟩ := p
    rw [hread] at h
    simp only at h
    have hle := (read_string_raw_parts _ _ _ hread).2.2
    split at h
    · cases h
      exact hle
    · split at h
      · cases h
      · cases h
        exact hle

theorem handleAttribute_cont_le (mr : Bool) (dt : Nat) (s t : DState)
    (h : handleAttribute mr dt s = .ok (.cont t)) :
    t.rs.data.length ≤ s.rs.data.length := by
  unfold handleAttribute at h
  split at h
  · cases h
  · cases hread : read_interned_string s.rs with
    | error e1 =>
      rw [hread] at h
      cases h
    | ok p =>
      obtain ⟨nm, rs1⟩ := p
      rw [hread] at h
      simp only at h
      have hle1 := (read_interned_string_le _ _ _ hread).2
      cases hval : decodeAttrValue dt rs1 with
      | error e1 =>
        rw [hval] at h
        cases h
      | ok q =>
        obtain ⟨v, rs2⟩ := q
        rw [hval] at h
        simp only at h
        have hle2 := decodeAttrValue_le _ _ _ _ hval
        split at h
        · cases h
        · cases h
          show rs2.data.length ≤ s.rs.data.length
          omega

theorem handleUnknown_cont_le (dt : Nat) (s t : DState)
    (h : handleUnknown dt s = .ok (.cont t)) :
    t.rs.data.length ≤ s.rs.data.length := by
  unfold handleUnknown at h
  split at h
  · split at h
    · cases hr : read_int s.rs with
      | error e1 =>
        rw [hr] at h
        cases h
      | ok p =>
        obtain ⟨v, rs1⟩ := p
        rw [hr] at h
        cases h
        have := read_int_parts _ _ _ hr
        show rs1.data.length ≤ s.rs.data.length
        omega
    · split at h
      · cases hr : read_string_raw s.rs with
        | error e1 =>
          rw [hr] at h
          cases h
        | ok p =>
          obtain ⟨v, rs1⟩ := p
          rw [hr] at h
          cases h
          exact (read_string_raw_parts _ _ _ hr).2.2
      · cases h
  · cases h
    exact Nat.le_refl _

theorem stepit_cont_lt (mr : Bool) (s t : DState)
    (h : stepit mr s = .ok (.cont t)) :
    t.rs.data.length < s.rs.data.length := by
  unfold stepit at h
  cases hb : read_byte s.rs with
  | error e1 =>
    rw [hb] at h
    cases h
  | ok p =>
    obtain ⟨token, rs0⟩ := p
    rw [hb] at h
    simp only at h
    have hb1 := (read_byte_parts _ _ _ hb).2
    split at h
    · have h2 : t.rs.data.length ≤ rs0.data.length := handleStartDocument_cont_le _ _ _ h
      omega
    · split at h
      · have h2 : t.rs.data.length ≤ rs0.data.length := handleEndDocument_cont_le _ _ _ _ h
        omega
      · split at h
        · have h2 : t.rs.data.length ≤ rs0.data.length := handleStartTag_cont_le _ _ _ h
          omega
        · split at h
          · have h2 : t.rs.data.length ≤ rs0.data.length := handleEndTag_cont_le _ _ _ _ h
            omega
          · split at h
            · have h2 : t.rs.data.length ≤ rs0.data.length := handleText_cont_le _ _ h
              omega
            · split at h
              · have h2 : t.rs.data.length ≤ rs0.data.length :=
                  handleAttribute_cont_le _ _ _ _ h
                omega
              · have h2 : t.rs.data.length ≤ rs0.data.length := handleUnknown_cont_le _ _ _ h
                omega

/-- Fuel irrelevance for the decode loop: any fuel strictly above the number
of remaining bytes gives the same outcome, since every continuing iteration
consumes at least the token byte — the zero-fuel branch of `loopFuel` is
unreachable from `readAbx`. -/
theorem loopFuel_irrel : ∀ (f1 f2 : Nat) (mr : Bool) (s : DState),
    s.rs.data.length < f1 → s.rs.data.length < f2 →
    loopFuel f1 mr s = loopFuel f2 mr s
  | 0, f2, mr, s => by
      intro h1 h2
      exact absurd h1 (by omega)
  | f1 + 1, 0, mr, s => by
      intro h1 h2
      exact absurd h2 (by omega)
  | f1 + 1, f2 + 1, mr, s => by
      intro h1 h2
      unfold loopFuel
      by_cases heof : s.rs.eofbit = true
      · rw [if_pos heof, if_pos heof]
      · rw [if_neg heof, if_neg heof]
        cases hst : stepit mr s with
        | error e => rfl
        | ok out =>
          cases out with
          | finish u => rfl
          | cont u =>
            have hlt := stepit_cont_lt mr s u hst
            exact loopFuel_irrel f1 f2 mr u (by omega) (by omega)

theorem skipPayload_le (token : Nat) (rs rs' : RState)
    (h : skipPayload token rs = .ok rs') : rs'.data.length ≤ rs.data.length := by
  unfold skipPayload at h
  by_cases hc1 : token &&& 0xf0 = 0x10
  · rw [if_pos hc1] at h
    cases h
    exact Nat.le_refl _
  rw [if_neg hc1] at h
  by_cases hc2 : token &&& 0xf0 = 0x60
  · rw [if_pos hc2] at h
    cases hr : read_int rs with
    | error e1 =>
      rw [hr] at h
      cases h
    | ok p =>
      obtain ⟨v1, rs1⟩ := p
      rw [hr] at h
      cases h
      have := read_int_parts _ _ _ hr
      omega
  rw [if_neg hc2] at h
  by_cases hc3 : token &&& 0xf0 = 0x80
  · rw [if_pos hc3] at h
    cases hr : read_long rs with
    | error e1 =>
      rw [hr] at h
      cases h
    | ok p =>
      obtain ⟨v1, rs1⟩ := p
      rw [hr] at h
      cases h
      have := read_long_parts _ _ _ hr
      omega
  rw [if_neg hc3] at h
  by_cases hc4 : token &&& 0xf0 = 0xA0
  · rw [if_pos hc4] at h
    cases hr : read_float rs with
    | error e1 =>
      rw [hr] at h
      cases h
    | ok p =>
      obtain ⟨v1, rs1⟩ := p
      rw [hr] at h
      cases h
      have := read_float_parts _ _ _ hr
      omega
  rw [if_neg hc4] at h
  by_cases hc5 : token &&& 0xf0 = 0xB0
  · rw [if_pos hc5] at h
    cases hr : read_double rs with
    | error e1 =>
      rw [hr] at h
      cases h
    | ok p =>
      obtain ⟨v1, rs1⟩ := p
      rw [hr] at h
      cases h
      have := read_double_parts _ _ _ hr
      omega
  rw [if_neg hc5] at h
  by_cases hc6 : token &&& 0xf0 = 0x20 ∨ token &&& 0xf0 = 0x30
  · rw [if_pos hc6] at h
    cases hr : read_string_raw rs with
    | error e1 =>
      rw [hr] at h
      cases h
    | ok p =>
      obtain ⟨v1, rs1⟩ := p
      rw [hr] at h
      cases h
      exact (read_string_raw_parts _ _ _ hr).2.2
  rw [if_neg hc6] at h
  by_cases hc7 : token &&& 0xf0 = 0x40 ∨ token &&& 0xf0 = 0x50
  · rw [if_pos hc7] at h
    cases hr : read_short rs with
    | error e1 =>
      rw [hr] at h
      cases h
    | ok p =>
      obtain ⟨v1, rs1⟩ := p
      rw [hr] at h
      cases h
      have := read_short_parts _ _ _ hr
      simp only [List.length_drop]
      omega
  rw [if_neg hc7] at h
  by_cases hc8 : token &&& 0x0f > 0
  · rw [if_pos hc8] at h
    cases h
    simp only [List.length_drop]
    omega
  · rw [if_neg hc8] at h
    cases h
    exact Nat.le_refl _

/-- Fuel irrelevance for the header-extension skipper, exactly analogous to
`loopFuel_irrel`. -/
theorem skipHeaderFuel_irrel : ∀ (f1 f2 : Nat) (rs : RState),
    rs.data.length < f1 → rs.data.length < f2 →
    skipHeaderFuel f1 rs = skipHeaderFuel f2 rs
  | 0, f2, rs => by
      intro h1 h2
      exact absurd h1 (by omega)
  | f1 + 1, 0, rs => by
      intro h1 h2
      exact absurd h2 (by omega)
  | f1 + 1, f2 + 1, rs => by
      intro h1 h2
      unfold skipHeaderFuel
      cases hb : read_byte rs with
      | error e => rfl
      | ok p =>
        obtain ⟨token, rs1⟩ := p
        by_cases hz : token &&& 0x0f = 0
        · simp [hz]
        · cases hsp : skipPayload token rs1 with
          | error e => simp [hz, hsp]
          | ok rs2 =>
            have hble := (read_byte_parts _ _ _ hb).2
            have hsple := skipPayload_le _ _ _ hsp
            simp [hz, hsp]
            exact skipHeaderFuel_irrel f1 f2 rs2 (by omega) (by omega)
